import Mathlib

/-!
Verification of the rules subsystem of the openpoke repository
(server/services/rules: models.py, parser_agent.py, store.py, engine.py).

The Python code is shallowly embedded: dynamically-typed dictionary values
are modelled by an inductive `Json` type, Python dataclasses by structures,
and each source function by a Lean function that mirrors its control flow.
-/

namespace OpenPoke

/-- Model of a Python/JSON dynamic value as it occurs in rule payloads,
tool arguments and the persisted store document.  Numbers are modelled as
integers (the code only ever compares against the integer 1 and the
JSON literal 1). -/
inductive Json where
  | null
  | bool (b : Bool)
  | num (n : Int)
  | str (s : String)
  | arr (xs : List Json)
  | obj (fields : List (String × Json))

/-- `d.get(key)` on a Python dict modelled as an association list
(first binding wins; dicts parsed from JSON have distinct keys). -/
def pget (fields : List (String × Json)) (key : String) : Option Json :=
  (fields.find? (fun kv => kv.1 = key)).map (fun kv => kv.2)

/- ---------- Python string primitives ---------- -/

/-- Python `str.strip()` on the ASCII whitespace fragment used here. -/
def trimChars (cs : List Char) : List Char :=
  ((cs.dropWhile Char.isWhitespace).reverse.dropWhile Char.isWhitespace).reverse

/-- Python `str.strip()`. -/
def pyStrip (s : String) : String :=
  String.mk (trimChars s.data)

/-- Python `str.lower()` (ASCII fragment). -/
def pyLower (s : String) : String :=
  String.mk (s.data.map Char.toLower)

/-- Does `hay` start with `needle`?  (Python `str.startswith`.) -/
def listStarts : List Char → List Char → Bool
  | [], _ => true
  | _ :: _, [] => false
  | a :: as, b :: bs => a = b && listStarts as bs

/-- Substring containment on character lists (Python `needle in hay`). -/
def listHasSub (needle : List Char) : List Char → Bool
  | [] => needle.isEmpty
  | c :: rest => listStarts needle (c :: rest) || listHasSub needle rest

/-- Python `needle in hay` on strings. -/
def hasSub (hay needle : String) : Bool :=
  listHasSub needle.data hay.data

/-- Python `hay.startswith(needle)` on strings. -/
def startsWithStr (hay needle : String) : Bool :=
  listStarts needle.data hay.data

/-- Fuel-indexed worker for `replaceAll`; each step consumes at least one
input character, so fuel equal to the input length suffices.  (Structural
recursion on the fuel keeps the definition kernel-reducible.) -/
def replaceAllAux (needle repl : List Char) : Nat → List Char → List Char
  | 0, cs => cs
  | _ + 1, [] => []
  | fuel + 1, c :: rest =>
    if needle ≠ [] && listStarts needle (c :: rest) then
      repl ++ replaceAllAux needle repl fuel (rest.drop (needle.length - 1))
    else
      c :: replaceAllAux needle repl fuel rest

/-- Replace every (non-overlapping, left-to-right) occurrence of `needle`
by `repl`, as Python `str.replace`. -/
def replaceAll (needle repl cs : List Char) : List Char :=
  replaceAllAux needle repl cs.length cs

/-- Python `hay.replace(needle, repl)` on strings. -/
def pyReplace (hay needle repl : String) : String :=
  String.mk (replaceAll needle.data repl.data hay.data)

/-- The maximal whitespace-separated words of a character list, in order
(`cur` holds the reversed word being scanned). -/
def wordsAux (cur : List Char) : List Char → List (List Char)
  | [] => if cur.isEmpty then [] else [cur.reverse]
  | c :: rest =>
    if c.isWhitespace then
      if cur.isEmpty then wordsAux [] rest
      else cur.reverse :: wordsAux [] rest
    else wordsAux (c :: cur) rest

/-- Join words with single spaces. -/
def joinWords : List (List Char) → List Char
  | [] => []
  | [w] => w
  | w :: ws => w ++ ' ' :: joinWords ws

/-- Python `re.sub(r"\s+", " ", s).strip()`: collapse whitespace runs to a
single space and strip the ends. -/
def collapseWs (s : String) : String :=
  String.mk (joinWords (wordsAux [] s.data))

/- ---------- models.py ---------- -/

/-- `RuleScope` (string enum): where a rule applies. -/
inductive RuleScope where
  | GLOBAL
  | CHAT
  | EMAIL
deriving DecidableEq

/-- The string value of a `RuleScope` member. -/
def RuleScope.value : RuleScope → String
  | .GLOBAL => "global"
  | .CHAT => "chat"
  | .EMAIL => "email"

/-- `RuleActionType` (string enum). -/
inductive RuleActionType where
  | PROMPT_INJECT
  | BLOCK_TOOL
  | CONFIRM_TOOL
  | BOOST_AGENT
  | EXCLUDE_AGENT
  | FORCE_AGENT
deriving DecidableEq

/-- The string value of a `RuleActionType` member. -/
def RuleActionType.value : RuleActionType → String
  | .PROMPT_INJECT => "prompt_inject"
  | .BLOCK_TOOL => "block_tool"
  | .CONFIRM_TOOL => "confirm_tool"
  | .BOOST_AGENT => "boost_agent"
  | .EXCLUDE_AGENT => "exclude_agent"
  | .FORCE_AGENT => "force_agent"

/-- `RuleAction`: one effect of a rule; the payload is an untyped dict. -/
structure RuleAction where
  type : RuleActionType
  payload : List (String × Json)

/-- `Rule`: a single persisted rule (dataclass defaults as in the source). -/
structure Rule where
  id : String
  enabled : Bool := true
  scope : RuleScope := .GLOBAL
  raw_text : String := ""
  actions : List RuleAction := []
  created_at : Option String := none
  updated_at : Option String := none

/-- `RuleParseResult`: output of `parse_user_rule`.  Confidence is the
literal stored by the parser, modelled as a rational.  Note the dataclass
defaults `confidence = 1.0` and `needs_confirmation = True`. -/
structure RuleParseResult where
  rule : Rule
  explanation : String
  confidence : ℚ := 1.0
  needs_confirmation : Bool := true

/-- `ToolDecision`: result of rule enforcement before a tool call. -/
structure ToolDecision where
  allowed : Bool
  requires_confirmation : Bool := false
  block_reason : Option String := none
  confirm_reason : Option String := none

/-- `ToolDecision.allow()`. -/
def ToolDecision.allow : ToolDecision :=
  ⟨true, false, none, none⟩

/-- `ToolDecision.block(reason)`. -/
def ToolDecision.block (reason : String) : ToolDecision :=
  ⟨false, false, some reason, none⟩

/-- `ToolDecision.require_confirm(reason)`. -/
def ToolDecision.require_confirm (reason : String) : ToolDecision :=
  ⟨true, true, none, some reason⟩

/- ---------- parser_agent.py ---------- -/

/-- `sorted(_SEND_TOOLS)`: the canonical send-tool set (a singleton). -/
def SEND_TOOLS : List String := ["gmail_execute_draft"]

/-- `sorted(_FORWARD_TOOLS)`. -/
def FORWARD_TOOLS : List String := ["gmail_forward_email"]

/-- `sorted(_DELETE_TOOLS)`. -/
def DELETE_TOOLS : List String := ["gmail_delete_draft"]

/-- The character class kept by `re.sub(r"[^\w\s@.-]+", " ", s)` (ASCII
fragment of the regex classes `\w` and `\s`). -/
def normKeep (c : Char) : Bool :=
  c.isAlphanum || c = '_' || c.isWhitespace || c = '@' || c = '.' || c = '-'

/-- `_norm`: strip+lowercase, rewrite the contraction (straight and curly
apostrophe) to "dont" before punctuation stripping, drop punctuation, and
collapse whitespace.  Replacing each dropped character by a single space is
equivalent to the source regex replacing each run by one space, because the
result is whitespace-collapsed immediately afterwards. -/
def norm (s : String) : String :=
  let s := pyLower (pyStrip s)
  let s := pyReplace (pyReplace s "don\x27t" "dont") "don’t" "dont"
  let s := String.mk (s.data.map (fun c => if normKeep c then c else ' '))
  collapseWs s

/-- The trigger phrases of `looks_like_rule`. -/
def triggers : List String :=
  ["always ", "never ", "from now on", "in the future", "please always",
   "please never", "dont ", "do not ", "stop ", "avoid ", "make sure "]

/-- `looks_like_rule`. -/
def looksLikeRule (text : String) : Bool :=
  let raw := pyLower (pyStrip text)
  if startsWithStr raw "rule:" || startsWithStr raw "rules:" then true
  else
    let t := norm text
    if t = "" then false
    else triggers.any (fun tr => hasSub t tr)

/-- Case-insensitive match of a lowercase `needle` against the front of
`hay`, returning the remainder on success. -/
def startsCI : List Char → List Char → Option (List Char)
  | [], hay => some hay
  | _ :: _, [] => none
  | a :: as, b :: bs => if b.toLower = a then startsCI as bs else none

/-- The match of `re.match(r"^\s*rules?\s*:\s*(.*)$", t, re.IGNORECASE)`:
skip leading whitespace, `rule` case-insensitively, an optional `s`,
whitespace, a colon, then whitespace; the captured group is the remainder,
which must contain no newline (`.` does not match newlines and the input
is already stripped, so `$` only matches at the end). -/
def ruleHeaderRest (cs : List Char) : Option (List Char) :=
  match startsCI "rule".data (cs.dropWhile Char.isWhitespace) with
  | none => none
  | some r1 =>
    let r2 := match startsCI "s".data r1 with
      | some x => x
      | none => r1
    match r2.dropWhile Char.isWhitespace with
    | ':' :: r4 =>
      let r5 := r4.dropWhile Char.isWhitespace
      if r5.contains '\n' then none else some r5
    | _ => none

/-- `_strip_rule_prefix`: drop a leading `rule:` / `rules:` marker. -/
def stripRuleHeader (text : String) : String :=
  let t := pyStrip text
  match ruleHeaderRest t.data with
  | some rest => pyStrip (String.mk rest)
  | none => t

/-- `parse_user_rule(text, scope=GLOBAL)`.  Identifier generation
(`_new_rule_id`, a random uuid suffix) is modelled by the extra `freshId`
argument.  The source returns from the confirm-send template only when
`wants_confirm or wants_draft_first` holds; when the outer guard holds but
the inner one fails, control falls through to the delete template, which
the flattened condition below reproduces. -/
def parseUserRule (freshId : String) (text : String) (scope : RuleScope) :
    Option RuleParseResult :=
  if ¬ looksLikeRule text then none
  else
    let raw := stripRuleHeader text
    let t := norm raw
    let is_never :=
      ["never ", "dont ", "don\x27t ", "do not ", "stop ", "avoid "].any
        (fun p => startsWithStr t p)
    let is_always :=
      ["always ", "please always ", "make sure "].any (fun p => startsWithStr t p)
    let wants_confirm :=
      ["confirm", "confirmation", "ask me", "approve", "approval"].any
        (fun k => hasSub t k)
    let wants_draft_first :=
      ["show draft", "draft first", "preview", "before sending"].any
        (fun k => hasSub t k)
    let mentions_send :=
      hasSub t "send" && (hasSub t "email" || hasSub t "emails" || hasSub t "mail")
    let mentions_forward := hasSub t "forward"
    let mentions_delete := hasSub t "delete" && hasSub t "draft"
    if (["be concise", "concise"].any (fun k => hasSub t k)) &&
        ¬ (mentions_send || mentions_forward || mentions_delete) then
      some ⟨⟨freshId, true, scope, raw,
             [⟨.PROMPT_INJECT, [("text", .str "Be concise.")]⟩], none, none⟩,
            "I’ll add a rule to be concise in responses.", 0.9, false⟩
    else if (["no emoji", "no emojis", "avoid emoji", "avoid emojis"].any
        (fun k => hasSub t k)) &&
        ¬ (mentions_send || mentions_forward || mentions_delete) then
      some ⟨⟨freshId, true, scope, raw,
             [⟨.PROMPT_INJECT, [("text", .str "Do not use emojis.")]⟩], none, none⟩,
            "I’ll add a rule to avoid emojis.", 0.9, false⟩
    else if mentions_send && is_never && ¬ wants_confirm && ¬ wants_draft_first then
      some ⟨⟨freshId, true, scope, raw,
             [⟨.BLOCK_TOOL,
               [("tools", .arr (SEND_TOOLS.map .str)),
                ("reason", .str "User rule: never send emails automatically.")]⟩],
             none, none⟩,
            "I’ll block sending emails.", 0.95, false⟩
    else if mentions_forward && is_never then
      some ⟨⟨freshId, true, scope, raw,
             [⟨.BLOCK_TOOL,
               [("tools", .arr (FORWARD_TOOLS.map .str)),
                ("reason", .str "User rule: never forward emails.")]⟩],
             none, none⟩,
            "I’ll block forwarding emails.", 0.95, false⟩
    else if mentions_send && (wants_confirm || wants_draft_first || is_always) &&
        (wants_confirm || wants_draft_first) then
      let reason :=
        if wants_draft_first then
          "User rule: show a draft and require confirmation before sending emails."
        else
          "User rule: require confirmation before sending emails."
      some ⟨⟨freshId, true, scope, raw,
             [⟨.CONFIRM_TOOL,
               [("tools", .arr (SEND_TOOLS.map .str)), ("reason", .str reason)]⟩],
             none, none⟩,
            "I’ll require confirmation before sending emails.", 0.9, false⟩
    else if mentions_delete && is_never then
      some ⟨⟨freshId, true, scope, raw,
             [⟨.BLOCK_TOOL,
               [("tools", .arr (DELETE_TOOLS.map .str)),
                ("reason", .str "User rule: never delete drafts.")]⟩],
             none, none⟩,
            "I’ll block deleting drafts.", 0.9, false⟩
    else none

/- ---------- engine.py ---------- -/

/-- `AppliedRuleContext`: bundle returned by `collect_effective_rules`.
The Python sets and reason dicts are modelled as insertion-ordered lists,
which preserves membership and the first-writer-wins reason lookup. -/
structure AppliedRuleContext where
  rules : List Rule
  prompt_instructions : String
  blocked_tools : List String
  confirm_tools : List String
  blocked_reasons : List (String × String)
  confirm_reasons : List (String × String)

/-- `_iter_actions` (the empty-list guard is the identity on a list). -/
def iterActions (r : Rule) : List RuleAction :=
  r.actions

/-- `_rule_enabled`. -/
def ruleEnabled (r : Rule) : Bool :=
  r.enabled

/-- `_scope_matches`: global rules apply everywhere. -/
def scopeMatches (rule_scope desired : RuleScope) : Bool :=
  rule_scope = RuleScope.GLOBAL || rule_scope = desired

/-- `filter_rules_for_scope`. -/
def filterRulesForScope (rules : List Rule) (scope : RuleScope) : List Rule :=
  rules.filter (fun r => ruleEnabled r && scopeMatches r.scope scope)

/-- The action-level body of the `build_prompt_instructions` loop: a
`PROMPT_INJECT` action whose payload text is a non-blank string appends
the stripped text and sets the `injected_any` flag. -/
def promptInjectStep (p : List String × Bool) (a : RuleAction) :
    List String × Bool :=
  if a.type = RuleActionType.PROMPT_INJECT then
    match pget a.payload "text" with
    | some (.str s) => if pyStrip s ≠ "" then (p.1 ++ [pyStrip s], true) else p
    | _ => p
  else p

/-- The per-rule body of the `build_prompt_instructions` loop: append the
stripped non-blank `PROMPT_INJECT` payload texts of `r` to `lines`,
tracking the `injected_any` flag, then apply the short-raw-text fallback
for rules that injected nothing. -/
def promptStep (lines : List String) (r : Rule) : List String :=
  let p := (iterActions r).foldl promptInjectStep (lines, false)
  if ¬ p.2 then
    let raw := pyStrip r.raw_text
    if raw ≠ "" && raw.length ≤ 200 then
      let has_tool_action := (iterActions r).any
        (fun a => a.type = RuleActionType.BLOCK_TOOL ||
                  a.type = RuleActionType.CONFIRM_TOOL)
      if ¬ has_tool_action then p.1 ++ [raw] else p.1
    else p.1
  else p.1

/-- `build_prompt_instructions`. -/
def buildPromptInstructions (rules : List Rule) (scope : RuleScope) : String :=
  let effective := filterRulesForScope rules scope
  let lines := effective.foldl promptStep []
  if lines.isEmpty then ""
  else
    "USER RULES (must follow):\n" ++
      String.intercalate "\n" (lines.map (fun ln => "- " ++ ln)) ++ "\n"

/-- Python truthiness of a JSON value (`x or y` chains). -/
def jsonTruthy : Json → Bool
  | .null => false
  | .bool b => b
  | .num n => n ≠ 0
  | .str s => s ≠ ""
  | .arr xs => ¬ xs.isEmpty
  | .obj fs => ¬ fs.isEmpty

/-- The reason resolution of `collect_effective_rules`:
`payload.get("reason") or rule.raw_text or "Blocked by user rule."`,
then replaced by the default unless it is a string with non-blank strip,
and finally stripped when stored. -/
def reasonOf (r : Rule) (payload : List (String × Json)) : String :=
  let chained : Json :=
    match pget payload "reason" with
    | some j =>
      if jsonTruthy j then j
      else if r.raw_text ≠ "" then .str r.raw_text else .str "Blocked by user rule."
    | none =>
      if r.raw_text ≠ "" then .str r.raw_text else .str "Blocked by user rule."
  match chained with
  | .str s => if pyStrip s ≠ "" then pyStrip s else "Blocked by user rule."
  | _ => "Blocked by user rule."

/-- The tool names collected from a `BLOCK_TOOL`/`CONFIRM_TOOL` payload:
`payload.get("tools", [])`, a bare string wrapped into a singleton list,
non-list values ignored, and only non-blank strings kept (unstripped). -/
def toolNames (payload : List (String × Json)) : List String :=
  let tools : List Json :=
    match pget payload "tools" with
    | some (.str s) => [.str s]
    | some (.arr xs) => xs
    | some _ => []
    | none => []
  tools.filterMap
    (fun j => match j with
      | .str s => if pyStrip s ≠ "" then some s else none
      | _ => none)

/-- `set.add`: append if not already present (membership-faithful model of
a Python set). -/
def addToSet (s : List String) (t : String) : List String :=
  if s.contains t then s else s ++ [t]

/-- `dict.setdefault(k, v)`: keep the first binding of `k`. -/
def setdefault (m : List (String × String)) (k v : String) :
    List (String × String) :=
  if (m.find? (fun kv => kv.1 = k)).isSome then m else m ++ [(k, v)]

/-- Accumulator of the `collect_effective_rules` loop. -/
structure CollectState where
  blocked : List String
  confirm : List String
  blocked_reasons : List (String × String)
  confirm_reasons : List (String × String)

/-- One action of the `collect_effective_rules` loop. -/
def collectAction (r : Rule) (st : CollectState) (a : RuleAction) : CollectState :=
  let reason := reasonOf r a.payload
  if a.type = RuleActionType.BLOCK_TOOL then
    (toolNames a.payload).foldl
      (fun st t =>
        ⟨addToSet st.blocked t, st.confirm,
         setdefault st.blocked_reasons t reason, st.confirm_reasons⟩)
      st
  else if a.type = RuleActionType.CONFIRM_TOOL then
    (toolNames a.payload).foldl
      (fun st t =>
        ⟨st.blocked, addToSet st.confirm t,
         st.blocked_reasons, setdefault st.confirm_reasons t reason⟩)
      st
  else st

/-- `collect_effective_rules`. -/
def collectEffectiveRules (rules : List Rule) (scope : RuleScope) :
    AppliedRuleContext :=
  let effective := filterRulesForScope rules scope
  let prompt := buildPromptInstructions effective scope
  let st := effective.foldl
    (fun st r => (iterActions r).foldl (collectAction r) st)
    ⟨[], [], [], []⟩
  ⟨effective, prompt, st.blocked, st.confirm, st.blocked_reasons, st.confirm_reasons⟩

/-- `_is_confirmed`: any of five argument keys counts as confirmation when
it holds boolean true, a string whose stripped lowercase form is a truthy
token, or the integer 1. -/
def isConfirmed (tool_args : List (String × Json)) : Bool :=
  ["confirmed", "confirm", "user_confirmed", "approved", "allow"].any
    (fun key =>
      match pget tool_args key with
      | some (.bool true) => true
      | some (.str s) =>
        ["true", "yes", "y", "1"].contains (pyLower (pyStrip s))
      | some (.num n) => n = 1
      | _ => false)

/-- `check_tool_call`: precedence block > confirm > allow. -/
def checkToolCall (rules : List Rule) (scope : RuleScope) (tool_name : String)
    (tool_args : List (String × Json)) : ToolDecision :=
  let ctx := collectEffectiveRules rules scope
  if ctx.blocked_tools.contains tool_name then
    ToolDecision.block
      (((ctx.blocked_reasons.find? (fun kv => kv.1 = tool_name)).map
          (fun kv => kv.2)).getD "Blocked by user rule.")
  else if ctx.confirm_tools.contains tool_name && ¬ isConfirmed tool_args then
    ToolDecision.require_confirm
      (((ctx.confirm_reasons.find? (fun kv => kv.1 = tool_name)).map
          (fun kv => kv.2)).getD "This action requires confirmation by user rule.")
  else ToolDecision.allow

/- ---------- store.py ---------- -/

/-- Serialization of an optional ISO-timestamp field (`None` → JSON null). -/
def jsonOfOptStr : Option String → Json
  | some s => .str s
  | none => .null

/-- `asdict` on a `RuleAction` as serialized by `json.dumps`: the string
enum member serializes as its value string. -/
def actionToDict (a : RuleAction) : Json :=
  .obj [("type", .str a.type.value), ("payload", .obj a.payload)]

/-- `_rule_to_dict` composed with JSON serialization: `asdict` in dataclass
field order, with the scope replaced by its enum value string. -/
def ruleToDict (r : Rule) : List (String × Json) :=
  [("id", .str r.id),
   ("enabled", .bool r.enabled),
   ("scope", .str r.scope.value),
   ("raw_text", .str r.raw_text),
   ("actions", .arr (r.actions.map actionToDict)),
   ("created_at", jsonOfOptStr r.created_at),
   ("updated_at", jsonOfOptStr r.updated_at)]

/-- The document written by `RuleStore.save` (the rules in the in-memory
dict's insertion order, `now` the `_utc_now_iso()` stamp).  `json.dumps`
followed by `json.loads` is the identity on this document, so save and
load are modelled directly on the `Json` tree. -/
def saveDoc (now : String) (rules : List Rule) : Json :=
  .obj [("version", .num 1), ("updated_at", .str now),
        ("rules", .arr (rules.map (fun r => .obj (ruleToDict r))))]

/-- `RuleScope(string)`: the enum constructor, failing on unknown values. -/
def scopeOfString (s : String) : Option RuleScope :=
  if s = "global" then some .GLOBAL
  else if s = "chat" then some .CHAT
  else if s = "email" then some .EMAIL
  else none

/-- `_coerce_scope` on a JSON value: `RuleScope(str(scope))`.  `str` of a
non-string JSON value (its Python repr) is never a valid scope value, so
only strings can coerce. -/
def coerceScope (j : Json) : Option RuleScope :=
  match j with
  | .str s => scopeOfString s
  | _ => none

/-- The field names accepted by the `Rule` dataclass constructor. -/
def ruleFieldNames : List String :=
  ["id", "enabled", "scope", "raw_text", "actions", "created_at", "updated_at"]

/-- A rule as rebuilt by `_rule_from_dict` = `Rule(**d)`: the constructor
performs no type checking, so every field except the coerced scope holds
the raw JSON value, with the dataclass defaults for missing keys. -/
structure LoadedRule where
  id : Json
  enabled : Json
  scope : RuleScope
  raw_text : Json
  actions : Json
  created_at : Json
  updated_at : Json

/-- `_rule_from_dict`: coerce the scope when present, then `Rule(**d)`,
which fails when a key is not a dataclass field or `id` is missing. -/
def ruleFromDict (d : List (String × Json)) : Option LoadedRule :=
  if ¬ d.all (fun kv => ruleFieldNames.contains kv.1) then none
  else
    match pget d "id" with
    | none => none
    | some idv =>
      let scopeR : Option RuleScope :=
        match pget d "scope" with
        | none => some .GLOBAL
        | some j => coerceScope j
      match scopeR with
      | none => none
      | some sc =>
        some ⟨idv, (pget d "enabled").getD (.bool true), sc,
              (pget d "raw_text").getD (.str ""),
              (pget d "actions").getD (.arr []),
              (pget d "created_at").getD .null,
              (pget d "updated_at").getD .null⟩

/-- One entry of the `load` loop: non-dict entries are skipped, and a
failing `_rule_from_dict` is caught and skipped. -/
def parseRuleItem (j : Json) : Option LoadedRule :=
  match j with
  | .obj d => ruleFromDict d
  | _ => none

/-- Whether a JSON value is hashable in Python (usable as a dict key);
`out[rule.id] = rule` raises on lists and dicts, which the same
`except` clause turns into a skip. -/
def jsonHashable : Json → Bool
  | .arr _ => false
  | .obj _ => false
  | _ => true

/-- Python `==` on hashable (flat) JSON dict keys.  Python booleans are
integers, so `True == 1` and `False == 0`. -/
def jsonKeyEq (a b : Json) : Bool :=
  match a, b with
  | .null, .null => true
  | .bool x, .bool y => x = y
  | .num x, .num y => x = y
  | .str x, .str y => x = y
  | .bool x, .num y => (if x then (1 : Int) else 0) = y
  | .num x, .bool y => x = (if y then (1 : Int) else 0)
  | _, _ => false

/-- `out[rule.id] = rule` on an insertion-ordered dict keyed by `id`. -/
def dictUpsert (acc : List LoadedRule) (r : LoadedRule) : List LoadedRule :=
  if acc.any (fun x => jsonKeyEq x.id r.id) then
    acc.map (fun x => if jsonKeyEq x.id r.id then r else x)
  else acc ++ [r]

/-- The body of the `load` loop for one list entry. -/
def loadStep (acc : List LoadedRule) (item : Json) : List LoadedRule :=
  match parseRuleItem item with
  | some r => if jsonHashable r.id then dictUpsert acc r else acc
  | none => acc

/-- The `load` loop over the `rules` list, building the keyed collection. -/
def loadItems (items : List Json) : List LoadedRule :=
  items.foldl loadStep []

/-- `RuleStore.load` on a parsed document: a dict uses its `rules` field
(absent or null meaning empty), a bare list is accepted directly; iterating
a string or a dict yields non-dict items (all skipped), and iterating any
other value raises. -/
def loadDoc (doc : Json) : Option (List LoadedRule) :=
  match doc with
  | .obj d =>
    match pget d "rules" with
    | none => some []
    | some .null => some []
    | some (.arr items) => some (loadItems items)
    | some (.str _) => some []
    | some (.obj _) => some []
    | some _ => none
  | .arr items => some (loadItems items)
  | .str _ => some []
  | .null => some []
  | _ => none

/-- A store's observable state: the in-memory dict (insertion-ordered,
keyed by `Rule.id`) and the content of the persisted document. -/
structure RuleStoreState where
  rules : List Rule
  doc : Json

/-- `self._rules[rule.id] = rule` on the in-memory dict. -/
def upsertRule (rs : List Rule) (r : Rule) : List Rule :=
  if rs.any (fun x => x.id = r.id) then
    rs.map (fun x => if x.id = r.id then r else x)
  else rs ++ [r]

/-- `RuleStore.add_rule(rule, save)`: requires a non-empty id (the Python
falsy check on `rule.id`), stamps `created_at` when unset and `updated_at`
always, upserts, and persists when `save` is set.  The error branch raises
before touching the store, returning the state unchanged. -/
def addRule (now : String) (st : RuleStoreState) (rule : Rule) (save : Bool) :
    RuleStoreState × Except String Rule :=
  if rule.id = "" then
    (st, .error "Rule.id must be set before adding to store")
  else
    let staged : Rule :=
      { rule with
        created_at :=
          if rule.created_at = none ∨ rule.created_at = some "" then some now
          else rule.created_at,
        updated_at := some now }
    let rules2 := upsertRule st.rules staged
    let doc2 := if save then saveDoc now rules2 else st.doc
    (⟨rules2, doc2⟩, .ok staged)

/-- The image of a rule under a save/load round trip: the same id, the
same scope, the same enabled flag, and for each action an entry recording
the same action type (its string-enum value) and the same payload. -/
def loadedOfRule (r : Rule) : LoadedRule :=
  ⟨.str r.id, .bool r.enabled, r.scope, .str r.raw_text,
   .arr (r.actions.map (fun a =>
     .obj [("type", .str a.type.value), ("payload", .obj a.payload)])),
   jsonOfOptStr r.created_at, jsonOfOptStr r.updated_at⟩

/- ---------- claim theorems ---------- -/

/-- The rule produced by the parser for a confirm-send instruction that
mentions emails (used for the amended C1 scenario). -/
def draftFirstRule : Rule :=
  ⟨"rX", true, .GLOBAL, "always show draft first before sending emails",
   [⟨.CONFIRM_TOOL,
     [("tools", .arr [.str "gmail_execute_draft"]),
      ("reason",
       .str "User rule: show a draft and require confirmation before sending emails.")]⟩],
   none, none⟩

/-- C1, counterexample: on the exact input text of the claim,
`parse_user_rule` returns none, not a `CONFIRM_TOOL` result — the text
contains neither "email" nor "mail", so `mentions_send` is false and the
confirm-send template never fires.  (The generated rule id cannot affect
which template matches, so one concrete id witnesses the failure.) -/
theorem draft_first_scenario_cex :
    parseUserRule "rX" "always show draft first before sending" .GLOBAL = none :=
  rfl

/-- C1, amended: for the input text "always show draft first before
sending emails" (default GLOBAL scope), `parse_user_rule` returns a result
whose rule has a CONFIRM_TOOL action over the send-tool set
{"gmail_execute_draft"}; for that rule, `check_tool_call` with empty tool
args requires confirmation, and with `{"confirmed": true}` it allows the
call without requiring confirmation. -/
theorem draft_first_scenario_amended :
    parseUserRule "rX" "always show draft first before sending emails" .GLOBAL =
      some ⟨draftFirstRule, "I’ll require confirmation before sending emails.",
            0.9, false⟩ ∧
    (checkToolCall [draftFirstRule] .GLOBAL "gmail_execute_draft"
        []).requires_confirmation = true ∧
    (checkToolCall [draftFirstRule] .GLOBAL "gmail_execute_draft"
        []).allowed = true ∧
    (checkToolCall [draftFirstRule] .GLOBAL "gmail_execute_draft"
        [("confirmed", .bool true)]).allowed = true ∧
    (checkToolCall [draftFirstRule] .GLOBAL "gmail_execute_draft"
        [("confirmed", .bool true)]).requires_confirmation = false :=
  ⟨rfl, rfl, rfl, rfl, rfl⟩

/-- The rule produced by the parser for "never send emails". -/
def neverSendRule : Rule :=
  ⟨"rN", true, .GLOBAL, "never send emails",
   [⟨.BLOCK_TOOL,
     [("tools", .arr [.str "gmail_execute_draft"]),
      ("reason", .str "User rule: never send emails automatically.")]⟩],
   none, none⟩

/-- C5: for the input text "never send emails" (default GLOBAL scope),
`parse_user_rule` returns a result whose rule has a BLOCK_TOOL action over
the send-tool set {"gmail_execute_draft"}, and
`check_tool_call([rule], GLOBAL, "gmail_execute_draft", {})` is not
allowed. -/
theorem never_send_emails_scenario :
    parseUserRule "rN" "never send emails" .GLOBAL =
      some ⟨neverSendRule, "I’ll block sending emails.", 0.95, false⟩ ∧
    (checkToolCall [neverSendRule] .GLOBAL "gmail_execute_draft" []).allowed =
      false :=
  ⟨rfl, rfl⟩

/-- C3: whenever a tool name is in both the blocked set and the confirm
set of the effective-rule context, `check_tool_call` blocks it —
for every rule list (hence every rule order), every scope, and every tool
argument dictionary (hence regardless of confirmation flags). -/
theorem block_dominates_confirm (rules : List Rule) (scope : RuleScope)
    (tool : String) (args : List (String × Json))
    (hb : (collectEffectiveRules rules scope).blocked_tools.contains tool = true)
    (_hc : (collectEffectiveRules rules scope).confirm_tools.contains tool = true) :
    (checkToolCall rules scope tool args).allowed = false := by
  unfold checkToolCall
  simp only [hb, if_true, ToolDecision.block]

/-- C3, witness: a concrete instance with one rule blocking and another
confirm-gating the same tool, called with a confirmation flag set. -/
theorem block_dominates_confirm_witness :
    (checkToolCall
      [⟨"b", true, .GLOBAL, "never send emails",
        [⟨.BLOCK_TOOL, [("tools", .arr [.str "gmail_execute_draft"])]⟩], none, none⟩,
       ⟨"c", true, .GLOBAL, "confirm before sending emails",
        [⟨.CONFIRM_TOOL, [("tools", .arr [.str "gmail_execute_draft"])]⟩], none, none⟩]
      .GLOBAL "gmail_execute_draft" [("confirmed", .bool true)]).allowed = false :=
  block_dominates_confirm _ _ _ _ rfl rfl

/-- C4: every decision returned by `check_tool_call` satisfies the
`ToolDecision` invariant: a disallowed decision never requires
confirmation and carries a block reason, and a confirmation-requiring
decision is allowed and carries a confirm reason. -/
theorem tool_decision_invariant (rules : List Rule) (scope : RuleScope)
    (tool : String) (args : List (String × Json)) :
    ((checkToolCall rules scope tool args).allowed = false →
      (checkToolCall rules scope tool args).requires_confirmation = false ∧
      (checkToolCall rules scope tool args).block_reason ≠ none) ∧
    ((checkToolCall rules scope tool args).requires_confirmation = true →
      (checkToolCall rules scope tool args).allowed = true ∧
      (checkToolCall rules scope tool args).confirm_reason ≠ none) := by
  unfold checkToolCall
  dsimp only
  split
  · simp [ToolDecision.block]
  · split
    · simp [ToolDecision.require_confirm]
    · simp [ToolDecision.allow]

/-- C4, witness: the invariant applied to a concrete blocked call. -/
theorem tool_decision_invariant_witness :
    (checkToolCall [neverSendRule] .GLOBAL "gmail_execute_draft"
        []).requires_confirmation = false ∧
    (checkToolCall [neverSendRule] .GLOBAL "gmail_execute_draft"
        []).block_reason ≠ none :=
  (tool_decision_invariant [neverSendRule] .GLOBAL "gmail_execute_draft" []).1 rfl

/-- C6: `_is_confirmed` accepts exactly when one of the five argument keys
maps to boolean true, the integer 1, or a string whose stripped lowercase
form is a truthy token; in particular it accepts `{"approved": "YES"}`,
`{"confirm": 1}` and `{"user_confirmed": true}`, and rejects
`{"approved": "no"}` and `{}`. -/
theorem confirmation_characterization :
    (∀ args : List (String × Json),
      isConfirmed args = true ↔
        ∃ key ∈ (["confirmed", "confirm", "user_confirmed", "approved",
                  "allow"] : List String),
          ∃ v, pget args key = some v ∧
            (v = .bool true ∨ v = .num 1 ∨
             ∃ s, v = .str s ∧
               pyLower (pyStrip s) ∈ (["true", "yes", "y", "1"] : List String))) ∧
    isConfirmed [("approved", .str "YES")] = true ∧
    isConfirmed [("confirm", .num 1)] = true ∧
    isConfirmed [("user_confirmed", .bool true)] = true ∧
    isConfirmed [("approved", .str "no")] = false ∧
    isConfirmed [] = false := by
  refine ⟨?_, rfl, rfl, rfl, rfl, rfl⟩
  intro args
  unfold isConfirmed
  rw [List.any_eq_true]
  constructor
  · rintro ⟨key, hk, hp⟩
    refine ⟨key, hk, ?_⟩
    rcases hq : pget args key with _ | v
    · rw [hq] at hp; simp at hp
    · rw [hq] at hp
      refine ⟨v, rfl, ?_⟩
      cases v with
      | null => simp at hp
      | bool b => cases b with
        | false => simp at hp
        | true => exact Or.inl rfl
      | num n =>
        simp only [decide_eq_true_eq] at hp
        exact Or.inr (Or.inl (by rw [hp]))
      | str s =>
        refine Or.inr (Or.inr ⟨s, rfl, ?_⟩)
        simpa using hp
      | arr xs => simp at hp
      | obj fs => simp at hp
  · rintro ⟨key, hk, v, hv, hcase⟩
    refine ⟨key, hk, ?_⟩
    rw [hv]
    rcases hcase with h1 | h1 | ⟨s, hs, hmem⟩
    · rw [h1]
    · rw [h1]; simp
    · rw [hs]
      simpa using hmem

/-- C8: adding a rule whose id is empty (the Python falsy check on
`rule.id`, which also covers an id that is missing/None) fails with the
precondition error, and both the in-memory rule collection and the
persisted document are exactly what they were before the call. -/
theorem add_rule_missing_id (now : String) (st : RuleStoreState) (rule : Rule)
    (save : Bool) (h : rule.id = "") :
    addRule now st rule save =
      (st, .error "Rule.id must be set before adding to store") := by
  unfold addRule
  rw [if_pos h]

/-- C8, witness: a concrete store and an id-less rule. -/
theorem add_rule_missing_id_witness :
    addRule "2024-01-01T00:00:00+00:00"
        ⟨[neverSendRule], saveDoc "2024-01-01T00:00:00+00:00" [neverSendRule]⟩
        ⟨"", true, .GLOBAL, "be concise", [], none, none⟩ true =
      (⟨[neverSendRule], saveDoc "2024-01-01T00:00:00+00:00" [neverSendRule]⟩,
       .error "Rule.id must be set before adding to store") :=
  add_rule_missing_id _ _ _ _ rfl

/-- C10: whenever `parse_user_rule` returns a result, that result has
`needs_confirmation = false` (each template overrides the model default of
true), confidence 0.9 or 0.95, and a rule that is enabled, carries the
requested scope, and has exactly one action. -/
theorem parse_result_invariant (freshId text : String) (scope : RuleScope)
    (res : RuleParseResult) (h : parseUserRule freshId text scope = some res) :
    res.needs_confirmation = false ∧
    (res.confidence = 0.9 ∨ res.confidence = 0.95) ∧
    res.rule.enabled = true ∧ res.rule.scope = scope ∧
    res.rule.actions.length = 1 := by
  unfold parseUserRule at h
  dsimp only at h
  split at h
  · exact Option.noConfusion h
  · split at h
    all_goals try split at h
    all_goals try split at h
    all_goals try split at h
    all_goals try split at h
    all_goals try split at h
    all_goals
      first
      | exact Option.noConfusion h
      | (injection h with h2
         subst h2
         exact ⟨rfl, Or.inl rfl, rfl, rfl, rfl⟩)
      | (injection h with h2
         subst h2
         exact ⟨rfl, Or.inr rfl, rfl, rfl, rfl⟩)

/-- The parse result for "never send emails". -/
def neverSendParse : RuleParseResult :=
  ⟨neverSendRule, "I’ll block sending emails.", 0.95, false⟩

/-- C10, witness: the invariant applied to the result of parsing
"never send emails". -/
theorem parse_result_invariant_witness :
    neverSendParse.needs_confirmation = false ∧
    (neverSendParse.confidence = 0.9 ∨ neverSendParse.confidence = 0.95) ∧
    neverSendParse.rule.enabled = true ∧
    neverSendParse.rule.scope = .GLOBAL ∧
    neverSendParse.rule.actions.length = 1 :=
  parse_result_invariant "rN" "never send emails" .GLOBAL neverSendParse rfl

/-- A record the `load` loop actually keeps: `_rule_from_dict` succeeds
and the resulting id is usable as a dict key.  This is the code's notion
of a well-formed persisted rule record. -/
def goodOf (j : Json) : Option LoadedRule :=
  match parseRuleItem j with
  | some r => if jsonHashable r.id then some r else none
  | none => none

/-- A list entry that `goodOf` rejects leaves the collection unchanged. -/
theorem loadStep_of_none (acc : List LoadedRule) (item : Json)
    (h : goodOf item = none) : loadStep acc item = acc := by
  unfold goodOf at h
  unfold loadStep
  cases hp : parseRuleItem item with
  | none => rfl
  | some r =>
    rw [hp] at h
    dsimp only at h ⊢
    by_cases hh : jsonHashable r.id
    · rw [if_pos hh] at h; exact Option.noConfusion h
    · rw [if_neg hh]

/-- A kept record whose id is fresh is appended to the collection. -/
theorem loadStep_of_some (acc : List LoadedRule) (item : Json) (r : LoadedRule)
    (h : goodOf item = some r)
    (hfree : acc.any (fun x => jsonKeyEq x.id r.id) = false) :
    loadStep acc item = acc ++ [r] := by
  unfold goodOf at h
  unfold loadStep
  cases hp : parseRuleItem item with
  | none => rw [hp] at h; exact Option.noConfusion h
  | some r2 =>
    rw [hp] at h
    dsimp only at h ⊢
    by_cases hh : jsonHashable r2.id
    · rw [if_pos hh] at h
      injection h with h2
      subst h2
      rw [if_pos hh]
      unfold dictUpsert
      rw [hfree]
      simp
    · rw [if_neg hh] at h; exact Option.noConfusion h

/-- The `load` loop over entries whose kept records have pairwise distinct
ids (fresh with respect to the accumulator) appends exactly the kept
records, in order. -/
theorem loadItems_go (items : List Json) (acc : List LoadedRule)
    (hdisj : ∀ r ∈ items.filterMap goodOf, ∀ x ∈ acc,
      jsonKeyEq x.id r.id = false)
    (hnd : (items.filterMap goodOf).Pairwise
      (fun a b => jsonKeyEq a.id b.id = false)) :
    items.foldl loadStep acc = acc ++ items.filterMap goodOf := by
  induction items generalizing acc with
  | nil => simp
  | cons item rest ih =>
    rw [List.foldl_cons]
    cases hg : goodOf item with
    | none =>
      rw [loadStep_of_none acc item hg]
      rw [List.filterMap_cons_none hg] at hdisj hnd ⊢
      exact ih acc hdisj hnd
    | some r =>
      rw [List.filterMap_cons_some hg] at hdisj hnd ⊢
      have hfree : acc.any (fun x => jsonKeyEq x.id r.id) = false := by
        rw [List.any_eq_false]
        intro x hx
        simp only [Bool.not_eq_true]
        exact hdisj r (List.mem_cons_self r _) x hx
      rw [loadStep_of_some acc item r hg hfree]
      rw [List.pairwise_cons] at hnd
      have hstep := ih (acc ++ [r]) ?_ hnd.2
      · rw [hstep, List.append_assoc]
        simp
      · intro r2 hr2 x hx
        rcases List.mem_append.mp hx with hxa | hxr
        · exact hdisj r2 (List.mem_cons_of_mem r hr2) x hxa
        · rw [List.mem_singleton.mp hxr]
          exact hnd.1 r2 hr2

/-- C2: `save()` followed by `load()` reproduces an equivalent rule
collection.  A store collection is keyed by id (ids pairwise distinct);
the loaded collection has, rule for rule in order, the same id, the same
scope, the same enabled flag, and action entries recording the same action
types (their string-enum values, equal to the enum members of the string
enums `RuleActionType`/`RuleScope`) and the same payloads — the
equivalence image `loadedOfRule`. -/
theorem save_load_roundtrip (now : String) (rules : List Rule)
    (hnd : (rules.map Rule.id).Nodup) :
    loadDoc (saveDoc now rules) = some (rules.map loadedOfRule) := by
  have h0 : loadDoc (saveDoc now rules) =
      some (loadItems (rules.map (fun r => Json.obj (ruleToDict r)))) := rfl
  rw [h0]
  have hgood : ∀ r : Rule,
      goodOf (Json.obj (ruleToDict r)) = some (loadedOfRule r) := by
    intro r
    rcases r with ⟨id, en, sc, raw, acts, ca, ua⟩
    cases sc <;> rfl
  have hfm : (rules.map (fun r => Json.obj (ruleToDict r))).filterMap goodOf =
      rules.map loadedOfRule := by
    rw [List.filterMap_map]
    have hcomp : (goodOf ∘ fun r => Json.obj (ruleToDict r)) =
        fun r => some (loadedOfRule r) := by
      funext r
      exact hgood r
    rw [hcomp]
    exact congrFun (List.filterMap_eq_map loadedOfRule) rules
  unfold loadItems
  rw [loadItems_go _ [] ?_ ?_]
  · rw [hfm]
    simp
  · intro r hr x hx
    exact absurd hx (List.not_mem_nil x)
  · rw [hfm]
    have h1 : rules.Pairwise (fun a b => a.id ≠ b.id) := List.pairwise_map.mp hnd
    rw [List.pairwise_map]
    refine h1.imp ?_
    intro a b hab
    simp [loadedOfRule, jsonKeyEq, hab]

/-- A concrete two-rule store collection. -/
def demoStoreRules : List Rule :=
  [⟨"rule_1", true, .GLOBAL, "be concise",
    [⟨.PROMPT_INJECT, [("text", .str "Be concise.")]⟩],
    some "2024-01-01T00:00:00+00:00", some "2024-01-01T00:00:00+00:00"⟩,
   ⟨"rule_2", false, .EMAIL, "never send emails",
    [⟨.BLOCK_TOOL,
      [("tools", .arr [.str "gmail_execute_draft"]),
       ("reason", .str "User rule: never send emails automatically.")]⟩],
    none, none⟩]

/-- C2, witness: the round trip on a concrete two-rule store. -/
theorem save_load_roundtrip_witness :
    (demoStoreRules.map Rule.id).Nodup ∧
    loadDoc (saveDoc "2024-02-02T00:00:00+00:00" demoStoreRules) =
      some (demoStoreRules.map loadedOfRule) :=
  ⟨by decide, save_load_roundtrip "2024-02-02T00:00:00+00:00" demoStoreRules
    (by decide)⟩

/-- C9, counterexample: two individually well-formed records (both parse
successfully) sharing the id "a", together with one malformed non-object
entry, load into a collection with a single rule — the later record
overwrote the earlier one, so the result does not contain exactly the
well-formed rules. -/
theorem load_exact_wellformed_cex :
    (parseRuleItem
      (Json.obj [("id", Json.str "a"), ("raw_text", Json.str "x")])).isSome =
        true ∧
    (parseRuleItem
      (Json.obj [("id", Json.str "a"), ("raw_text", Json.str "y")])).isSome =
        true ∧
    (loadDoc (Json.obj [("rules",
        Json.arr [Json.obj [("id", Json.str "a"), ("raw_text", Json.str "x")],
                  Json.obj [("id", Json.str "a"), ("raw_text", Json.str "y")],
                  Json.num 42])])).map List.length = some 1 :=
  ⟨rfl, rfl, rfl⟩

/-- C9, amended: on every persisted document whose `rules` field holds a
list, `load()` succeeds and yields exactly the records the code keeps
(those on which `_rule_from_dict` succeeds, with a hashable id), with all
malformed records skipped — provided the kept records carry pairwise
distinct ids (records sharing an id collapse to the last one). -/
theorem load_skips_malformed (d : List (String × Json)) (items : List Json)
    (hrules : pget d "rules" = some (Json.arr items))
    (hnd : (items.filterMap goodOf).Pairwise
      (fun a b => jsonKeyEq a.id b.id = false)) :
    loadDoc (Json.obj d) = some (items.filterMap goodOf) := by
  unfold loadDoc
  dsimp only
  rw [hrules]
  dsimp only
  unfold loadItems
  rw [loadItems_go items [] ?_ hnd]
  · simp
  · intro r hr x hx
    exact absurd hx (List.not_mem_nil x)

/-- The list entries of the C9 witness document: one well-formed record,
one record missing `id`, one with an unrecognized scope value, and one
non-object entry. -/
def mixedRecords : List Json :=
  [Json.obj [("id", Json.str "rule_ok"), ("enabled", Json.bool true),
             ("scope", Json.str "chat"), ("raw_text", Json.str "be concise"),
             ("actions", Json.arr []), ("created_at", Json.null),
             ("updated_at", Json.null)],
   Json.obj [("enabled", Json.bool true)],
   Json.obj [("id", Json.str "rule_bad"), ("scope", Json.str "universe")],
   Json.num 42]

/-- C9, witness: the mixed document loads to exactly the well-formed
rule. -/
theorem load_skips_malformed_witness :
    loadDoc (Json.obj [("version", Json.num 1),
        ("rules", Json.arr mixedRecords)]) =
      some [⟨.str "rule_ok", .bool true, .CHAT, .str "be concise", .arr [],
             .null, .null⟩] := by
  refine load_skips_malformed
    [("version", Json.num 1), ("rules", Json.arr mixedRecords)]
    mixedRecords rfl ?_
  exact List.Pairwise.cons (fun y hy => absurd hy (List.not_mem_nil y))
    List.Pairwise.nil

/-- The stripped text contributed by a single action to the prompt block,
when any: a `PROMPT_INJECT` action whose payload text is a string with
non-blank strip. -/
def injectText (a : RuleAction) : Option String :=
  if a.type = RuleActionType.PROMPT_INJECT then
    match pget a.payload "text" with
    | some (.str s) => if pyStrip s ≠ "" then some (pyStrip s) else none
    | _ => none
  else none

/-- All injected texts of a rule, in action order. -/
def injectTexts (r : Rule) : List String :=
  r.actions.filterMap injectText

/-- The fallback condition of the amended C7 claim: the trimmed raw text
is non-empty, at most 200 characters, and the rule carries no
`BLOCK_TOOL`/`CONFIRM_TOOL` action. -/
def fallbackEligible (r : Rule) : Bool :=
  pyStrip r.raw_text ≠ "" && (pyStrip r.raw_text).length ≤ 200 &&
    !(r.actions.any (fun a => a.type = RuleActionType.BLOCK_TOOL ||
                              a.type = RuleActionType.CONFIRM_TOOL))

/-- The prompt lines one rule contributes, as the amended C7 claim states
them: its non-blank stripped `PROMPT_INJECT` payload texts, or, if there
are none, its trimmed raw text exactly when `fallbackEligible`. -/
def ruleLinesSpec (r : Rule) : List String :=
  if injectTexts r = [] then
    if fallbackEligible r then [pyStrip r.raw_text] else []
  else injectTexts r

/-- The prompt lines of a rule list, in scope-filtered rule order. -/
def promptLinesSpec (rules : List Rule) (scope : RuleScope) : List String :=
  ((filterRulesForScope rules scope).map ruleLinesSpec).flatten

/-- The action-loop body either appends an injected text and sets the
flag, or leaves the accumulator unchanged. -/
theorem promptInjectStep_eq (p : List String × Bool) (a : RuleAction) :
    promptInjectStep p a =
      match injectText a with
      | some t => (p.1 ++ [t], true)
      | none => p := by
  unfold promptInjectStep injectText
  by_cases ht : a.type = RuleActionType.PROMPT_INJECT
  · rw [if_pos ht, if_pos ht]
    cases hq : pget a.payload "text" with
    | none => rfl
    | some v =>
      cases v with
      | str s =>
        dsimp only
        by_cases hs : pyStrip s ≠ ""
        · simp [hs]
        · simp [hs]
      | null => rfl
      | bool b => rfl
      | num n => rfl
      | arr xs => rfl
      | obj fs => rfl
  · rw [if_neg ht, if_neg ht]

/-- The action loop appends exactly the injected texts, and the
`injected_any` flag records whether there was at least one. -/
theorem promptFoldAux (acts : List RuleAction) (lines : List String)
    (flag : Bool) :
    acts.foldl promptInjectStep (lines, flag) =
      (lines ++ acts.filterMap injectText,
       flag || !(acts.filterMap injectText).isEmpty) := by
  induction acts generalizing lines flag with
  | nil => simp
  | cons a rest ih =>
    rw [List.foldl_cons, promptInjectStep_eq]
    cases hi : injectText a with
    | none =>
      dsimp only
      rw [List.filterMap_cons_none hi, ih]
    | some t =>
      dsimp only
      rw [List.filterMap_cons_some hi, ih]
      simp

/-- One iteration of the rule loop of `build_prompt_instructions` appends
exactly the lines the amended C7 claim assigns to that rule. -/
theorem promptStep_eq (lines : List String) (r : Rule) :
    promptStep lines r = lines ++ ruleLinesSpec r := by
  unfold promptStep iterActions ruleLinesSpec injectTexts
  rw [promptFoldAux]
  dsimp only
  by_cases hin : List.filterMap injectText r.actions = []
  · rw [hin]
    by_cases h1 : pyStrip r.raw_text = ""
    · simp [fallbackEligible, h1]
    · by_cases h2 : (pyStrip r.raw_text).length ≤ 200
      · by_cases h3 : (r.actions.any (fun a =>
            a.type = RuleActionType.BLOCK_TOOL ||
            a.type = RuleActionType.CONFIRM_TOOL)) = true
        · simp [fallbackEligible, h1, h2, h3]
        · simp [fallbackEligible, h1, h2, h3]
      · simp [fallbackEligible, h1, h2]
  · cases hl : List.filterMap injectText r.actions with
    | nil => exact absurd hl hin
    | cons t ts => simp [hl]

/-- The rule loop of `build_prompt_instructions` collects the
concatenation of the per-rule lines. -/
theorem promptFoldRules (rs : List Rule) (lines : List String) :
    rs.foldl promptStep lines = lines ++ (rs.map ruleLinesSpec).flatten := by
  induction rs generalizing lines with
  | nil => simp
  | cons r rest ih =>
    rw [List.foldl_cons, promptStep_eq, ih, List.map_cons, List.flatten_cons,
      List.append_assoc]

/-- C7, counterexample: a rule whose raw text is a single space is
non-empty, within the 200-character bound, and carries no tool action, so
the claim requires its raw text as a fallback line (and hence a non-empty
result); the code strips the raw text before the emptiness test and
produces the empty string. -/
theorem prompt_fallback_cex :
    (Rule.mk "r0" true .GLOBAL " " [] none none).raw_text ≠ "" ∧
    (Rule.mk "r0" true .GLOBAL " " [] none none).raw_text.length ≤ 200 ∧
    (Rule.mk "r0" true .GLOBAL " " [] none none).actions = [] ∧
    buildPromptInstructions [Rule.mk "r0" true .GLOBAL " " [] none none]
      .GLOBAL = "" :=
  ⟨by decide, by decide, rfl, rfl⟩

/-- C7, amended: `build_prompt_instructions` collects, per effective rule
in scope-filtered order, the non-blank stripped `PROMPT_INJECT` payload
texts; a rule that contributed no injected text falls back to its trimmed
raw text if and only if that trimmed text is non-empty, at most 200
characters, and the rule carries no `BLOCK_TOOL`/`CONFIRM_TOOL` action;
no lines give the empty string, and otherwise the result is the fixed
header followed by one "- "-prefixed line per instruction. -/
theorem build_prompt_instructions_spec (rules : List Rule) (scope : RuleScope) :
    buildPromptInstructions rules scope =
      if promptLinesSpec rules scope = [] then ""
      else
        "USER RULES (must follow):\n" ++
          String.intercalate "\n"
            ((promptLinesSpec rules scope).map (fun ln => "- " ++ ln)) ++ "\n" := by
  unfold buildPromptInstructions promptLinesSpec
  dsimp only
  rw [promptFoldRules]
  simp only [List.nil_append]
  by_cases h : ((filterRulesForScope rules scope).map ruleLinesSpec).flatten = []
  · simp [h]
  · simp [List.isEmpty_iff, h]

end OpenPoke
